import Mathlib

/-!
Shallow embedding of the learning/scheduling engine of the `studio`
repository: the numeric mastery-update, priority-scoring and
spaced-repetition functions of `LearningService`, and the
accuracy-based progress tracking of `AnalyticsService`.

JavaScript numbers are modelled as rationals (`ℚ`); every arithmetic
step of the source translates exactly (`Math.max`/`Math.min` become
`max`/`min`, `Math.floor` becomes `Int.floor`, `Math.round x` becomes
`⌊x + 1/2⌋`).  Timestamps (`Date` values, `Date.now()`) are modelled as
integer milliseconds.  Database rows become structures; the
read-then-write service operations become pure functions from the row
read (an `Option`) to the row written.
-/

namespace Studio

/-- A `UserProgress` row (Prisma model `user_progress`): per (user, topic)
mastery level, last-practiced timestamp (epoch milliseconds) and the
cumulative attempt counters. -/
structure UserProgress where
  userId : String
  topic : String
  masteryLevel : ℚ
  lastPracticed : ℤ
  totalAttempts : ℤ
  correctAttempts : ℤ
  deriving Repr, DecidableEq

/-- A `Question` row: id, topic and difficulty (a free string in the
schema, defaulting to "medium"). The prompt and answer text play no role
in the scheduling logic and are omitted. -/
structure Question where
  id : String
  topic : String
  difficulty : String
  deriving Repr, DecidableEq

/-- JavaScript `Math.round`: rounds half-way cases up (toward +∞). -/
def jsRound (x : ℚ) : ℤ := ⌊x + 1/2⌋

/-- Number of whole days between two epoch-millisecond timestamps, as the
source computes it: `Math.floor((now - last) / (1000*60*60*24))`. -/
def daysSince (now last : ℤ) : ℤ := ⌊(((now - last : ℤ) : ℚ) / 86400000)⌋

/-- `LearningService.calculateNewMasteryLevel` (part_004 lines 414-443):
clamp performance to [0,1], learning rate `0.1 * (1 - mastery/100)`,
signed change, stability scaling by `1 + min(1, totalAttempts/10)`, and a
final clamp to [0,100]. -/
def calculateNewMasteryLevel (currentMastery performance totalAttempts : ℚ) : ℚ :=
  let normalizedPerformance := max 0 (min 1 performance)
  let learningRate := 0.1 * (1 - currentMastery / 100)
  let masteryChange :=
    if normalizedPerformance > 0.5 then
      learningRate * (normalizedPerformance - 0.5) * 100
    else
      -learningRate * (0.5 - normalizedPerformance) * 50
  let stabilityFactor := min 1 (totalAttempts / 10)
  let masteryChange := masteryChange * (1 + stabilityFactor)
  let newMastery := currentMastery + masteryChange
  max 0 (min 100 newMastery)

/-- `AnalyticsService.calculateMasteryLevel` (analytics.service.ts lines
268-282): accuracy * 100 with a consistency bonus, clamped. -/
def calculateMasteryLevel (correctAttempts totalAttempts : ℤ) : ℚ :=
  if totalAttempts = 0 then 0
  else
    let accuracy : ℚ := (correctAttempts : ℚ) / (totalAttempts : ℚ)
    let masteryLevel := accuracy * 100
    let masteryLevel :=
      if totalAttempts ≥ 5 ∧ accuracy ≥ 0.8 then
        masteryLevel + min 10 ((totalAttempts : ℚ) * 0.5)
      else masteryLevel
    min 100 (max 0 masteryLevel)

/-- `AnalyticsService.updateUserProgress` (lines 225-263) as a pure state
transition: from the row found for (userId, topic) — `none` when absent —
to the row written.  `now` is the timestamp taken for `lastPracticed`. -/
def updateUserProgress (existing : Option UserProgress) (userId topic : String)
    (isCorrect : Bool) (now : ℤ) : UserProgress :=
  match existing with
  | some p =>
    let newTotalAttempts := p.totalAttempts + 1
    let newCorrectAttempts := p.correctAttempts + (if isCorrect then 1 else 0)
    { p with
      totalAttempts := newTotalAttempts
      correctAttempts := newCorrectAttempts
      masteryLevel := calculateMasteryLevel newCorrectAttempts newTotalAttempts
      lastPracticed := now }
  | none =>
    { userId := userId
      topic := topic
      totalAttempts := 1
      correctAttempts := if isCorrect then 1 else 0
      masteryLevel := calculateMasteryLevel (if isCorrect then 1 else 0) 1
      lastPracticed := now }

/-- `LearningService.updateMasteryLevel` (part_004 lines 184-222) as a
pure state transition on the (userId, topic) row.  The new mastery is
computed from `existing?.masteryLevel || 0` and
`existing?.totalAttempts || 0`; an existing row gets only `masteryLevel`
and `lastPracticed` written, a missing row is created with
`totalAttempts = 1` and `correctAttempts = performance > 0.5 ? 1 : 0`. -/
def updateMasteryLevel (existing : Option UserProgress) (userId topic : String)
    (performance : ℚ) (now : ℤ) : UserProgress :=
  let newMasteryLevel := calculateNewMasteryLevel
    ((existing.map (·.masteryLevel)).getD 0)
    performance
    (((existing.map (·.totalAttempts)).getD 0 : ℤ) : ℚ)
  match existing with
  | some p => { p with masteryLevel := newMasteryLevel, lastPracticed := now }
  | none =>
    { userId := userId
      topic := topic
      masteryLevel := newMasteryLevel
      totalAttempts := 1
      correctAttempts := if performance > 0.5 then 1 else 0
      lastPracticed := now }

/-- `LearningService.calculateQuestionPriority` (part_004 lines 358-409):
base 50, mastery factor, recency factor, difficulty factor, penalty for a
recent attempt, success-rate factor, clamped to [0,100].  `now` is the
`Date.now()` value at scoring time. -/
def calculateQuestionPriority (question : Question) (progress : Option UserProgress)
    (wasRecentlyAttempted : Bool) (now : ℤ) : ℚ :=
  let priority : ℚ := 50
  let priority :=
    match progress with
    | some p => priority + (100 - p.masteryLevel) * 0.5
    | none => priority + 25
  let priority :=
    match progress with
    | some p =>
      let daysSinceLastPractice := daysSince now p.lastPracticed
      priority + min ((daysSinceLastPractice : ℚ) * 2) 20
    | none => priority
  let priority := priority +
    (if question.difficulty = "easy" then 5
     else if question.difficulty = "medium" then 10
     else if question.difficulty = "hard" then 15
     else 0)
  let priority := if wasRecentlyAttempted then priority - 30 else priority
  let priority :=
    match progress with
    | some p =>
      if p.totalAttempts > 0 then
        let successRate := (p.correctAttempts : ℚ) / (p.totalAttempts : ℚ)
        if successRate < 0.5 then priority + 20
        else if successRate > 0.8 then priority - 10
        else priority
      else priority
    | none => priority
  max 0 (min 100 priority)

/-- Result record of `calculateSpacedRepetitionInterval`. -/
structure SpacedRepetitionResult where
  newInterval : ℚ
  newEaseFactor : ℚ
  newRepetitions : ℤ
  deriving Repr, DecidableEq

/-- `LearningService.calculateSpacedRepetitionInterval` (part_004 lines
272-306): SM-2-style update on a 0-1 performance scale. -/
def calculateSpacedRepetitionInterval (currentInterval : ℚ) (repetitions : ℤ)
    (easeFactor performance : ℚ) : SpacedRepetitionResult :=
  let newInterval :=
    if performance ≥ 0.6 then
      if repetitions = 0 then (1 : ℚ)
      else if repetitions = 1 then 6
      else (jsRound (currentInterval * easeFactor) : ℚ)
    else 1
  let newRepetitions := if performance ≥ 0.6 then repetitions + 1 else 0
  let newEaseFactor :=
    max 1.3 (easeFactor + (0.1 - (5 - performance * 5) * (0.08 + (5 - performance * 5) * 0.02)))
  { newInterval := newInterval
    newEaseFactor := newEaseFactor
    newRepetitions := newRepetitions }

/-- The review interval chosen in `getQuestionsForReview` (part_004 lines
326-332) from a topic's mastery level. -/
def reviewInterval (masteryLevel : ℚ) : ℤ :=
  if masteryLevel ≥ 80 then 7
  else if masteryLevel ≥ 60 then 3
  else 1

/-- The due test of `getQuestionsForReview` (part_004 line 334). -/
def isDue (now : ℤ) (p : UserProgress) : Bool :=
  daysSince now p.lastPracticed ≥ reviewInterval p.masteryLevel

/-- `LearningService.getQuestionsForReview` (part_004 lines 311-353) over
an explicit store state: the learner's progress rows, the question bank
and the current time.  The loop collects the ids of all questions whose
topic has a due progress row; the final fetch returns the bank's
questions whose id is in that collection (each bank row at most once). -/
def getQuestionsForReview (userProgress : List UserProgress)
    (questions : List Question) (now : ℤ) : List Question :=
  let questionsForReview : List String :=
    userProgress.flatMap (fun p =>
      if isDue now p then
        (questions.filter (fun q => q.topic = p.topic)).map (·.id)
      else [])
  questions.filter (fun q => questionsForReview.contains q.id)

/-- One scored entry of `getNextQuestions`'s `questionPriorities` array. -/
structure ScoredQuestion where
  question : Question
  priority : ℚ
  masteryLevel : ℚ
  deriving Repr, DecidableEq

/-- The per-question scoring step of `getNextQuestions` (part_004 lines
155-164): look up the topic's progress, score the question, and record
`progress?.masteryLevel || 0` for the tie-break. -/
def scoreQuestion (userProgress : List UserProgress) (recentQuestionIds : List String)
    (now : ℤ) (question : Question) : ScoredQuestion :=
  let progress := userProgress.find? (fun p => p.topic = question.topic)
  { question := question
    priority := calculateQuestionPriority question progress
      (recentQuestionIds.contains question.id) now
    masteryLevel := (progress.map (·.masteryLevel)).getD 0 }

/-- The comparator of `getNextQuestions` (part_004 lines 167-172) as a
"precedes or ties" test: `a` may come before `b` iff `a` has strictly
higher priority, or equal priority and `a`'s mastery level is at most
`b`'s. -/
def scorePrecedes (a b : ScoredQuestion) : Bool :=
  b.priority < a.priority ∨ (a.priority = b.priority ∧ a.masteryLevel ≤ b.masteryLevel)

/-- `LearningService.getNextQuestions` (part_004 lines 132-179) over an
explicit store state: score every question of the bank, sort by priority
descending with ascending mastery as tie-break (JavaScript `sort` is
stable; `mergeSort` is the stable sort of the embedding), return the
first `count`. -/
def getNextQuestions (userProgress : List UserProgress) (recentQuestionIds : List String)
    (questions : List Question) (count : ℕ) (now : ℤ) : List Question :=
  let questionPriorities := questions.map (scoreQuestion userProgress recentQuestionIds now)
  let sorted := questionPriorities.mergeSort scorePrecedes
  (sorted.take count).map (·.question)

/-- The data invariant on a `UserProgress` row: the correct-attempt
counter never exceeds the total-attempt counter, and a row with no
attempts has no correct attempts. -/
def ProgressInv (p : UserProgress) : Prop :=
  p.correctAttempts ≤ p.totalAttempts ∧ (p.totalAttempts = 0 → p.correctAttempts = 0)

instance (p : UserProgress) : Decidable (ProgressInv p) := by
  unfold ProgressInv; infer_instance

end Studio

open Studio

/-- Claim C1: for every input triple, `calculateNewMasteryLevel` returns a value
in [0, 100], and `calculateMasteryLevel` returns a value in [0, 100] for
every pair of integer arguments, out-of-range inputs included. -/
theorem mastery_update_range :
    (∀ currentMastery performance totalAttempts : ℚ,
      0 ≤ calculateNewMasteryLevel currentMastery performance totalAttempts ∧
        calculateNewMasteryLevel currentMastery performance totalAttempts ≤ 100) ∧
    (∀ correctAttempts totalAttempts : ℤ,
      0 ≤ calculateMasteryLevel correctAttempts totalAttempts ∧
        calculateMasteryLevel correctAttempts totalAttempts ≤ 100) := by
  constructor
  · intro c p t
    simp only [calculateNewMasteryLevel]
    exact ⟨le_max_left 0 _, max_le (by norm_num) (min_le_left _ _)⟩
  · intro ca ta
    simp only [calculateMasteryLevel]
    split
    · norm_num
    · exact ⟨le_min (by norm_num) (le_max_left 0 _), min_le_left _ _⟩

/-- Claim C5: `calculateNewMasteryLevel` equals the clamp to [0,100] of the
current mastery plus the learning-rate-weighted, stability-scaled change,
with the performance first clamped to [0,1]; at (50, 0.5, 0) the result
is exactly 50 (zero change). -/
theorem calculateNewMasteryLevel_spec :
    (∀ currentMastery performance totalAttempts : ℚ,
      calculateNewMasteryLevel currentMastery performance totalAttempts =
        max 0 (min 100 (currentMastery +
          (if max 0 (min 1 performance) > 0.5 then
              0.1 * (1 - currentMastery / 100) * (max 0 (min 1 performance) - 0.5) * 100
            else
              -(0.1 * (1 - currentMastery / 100)) * (0.5 - max 0 (min 1 performance)) * 50) *
            (1 + min 1 (totalAttempts / 10))))) ∧
    calculateNewMasteryLevel 50 0.5 0 = 50 := by
  constructor
  · intro c p t
    rfl
  · norm_num [calculateNewMasteryLevel]

/-- Claim C6: `calculateMasteryLevel` is 0 at zero total attempts and otherwise
the clamp of accuracy*100 plus the consistency bonus
`min 10 (totalAttempts*0.5)` granted exactly when totalAttempts ≥ 5 and
accuracy ≥ 0.8; at (8, 10) it is exactly 85; and `updateUserProgress`
recomputes the stored mastery with exactly this formula from the stored
counters on every attempt, in both the update and create branches. -/
theorem calculateMasteryLevel_spec :
    (∀ correctAttempts totalAttempts : ℤ,
      calculateMasteryLevel correctAttempts totalAttempts =
        if totalAttempts = 0 then 0
        else
          min 100 (max 0 ((correctAttempts : ℚ) / (totalAttempts : ℚ) * 100 +
            (if totalAttempts ≥ 5 ∧ (correctAttempts : ℚ) / (totalAttempts : ℚ) ≥ 0.8 then
              min 10 ((totalAttempts : ℚ) * 0.5)
            else 0)))) ∧
    calculateMasteryLevel 8 10 = 85 ∧
    (∀ (existing : Option UserProgress) (userId topic : String) (isCorrect : Bool) (now : ℤ),
      (updateUserProgress existing userId topic isCorrect now).masteryLevel =
        calculateMasteryLevel
          (updateUserProgress existing userId topic isCorrect now).correctAttempts
          (updateUserProgress existing userId topic isCorrect now).totalAttempts) := by
  refine ⟨?_, ?_, ?_⟩
  · intro ca ta
    simp only [calculateMasteryLevel]
    split
    · rfl
    · split
      · rfl
      · norm_num
  · norm_num [calculateMasteryLevel]
  · intro existing userId topic isCorrect now
    cases existing <;> rfl

/-- Claim C10: when a row exists, `updateMasteryLevel` writes only
`masteryLevel` and `lastPracticed` — the attempt counters (and the key
fields) of the row are unchanged — while the boolean-attempt path
`updateUserProgress` increments `totalAttempts` on every attempt and
`correctAttempts` exactly on correct ones. -/
theorem updateMasteryLevel_frame :
    ∀ (p : UserProgress) (userId topic : String) (performance : ℚ) (isCorrect : Bool) (now : ℤ),
      (updateMasteryLevel (some p) userId topic performance now).totalAttempts =
        p.totalAttempts ∧
      (updateMasteryLevel (some p) userId topic performance now).correctAttempts =
        p.correctAttempts ∧
      (updateMasteryLevel (some p) userId topic performance now).userId = p.userId ∧
      (updateMasteryLevel (some p) userId topic performance now).topic = p.topic ∧
      (updateUserProgress (some p) userId topic isCorrect now).totalAttempts =
        p.totalAttempts + 1 ∧
      (updateUserProgress (some p) userId topic isCorrect now).correctAttempts =
        p.correctAttempts + (if isCorrect then 1 else 0) := by
  intro p userId topic performance isCorrect now
  exact ⟨rfl, rfl, rfl, rfl, rfl, rfl⟩

/-- Claim C3: `calculateSpacedRepetitionInterval` follows the SM-2 scheme — on
a pass (performance ≥ 0.6) the interval is 1, 6 or
round(currentInterval * easeFactor) according to the repetition count,
which increments; on a fail both reset; the ease factor is always
`max(1.3, easeFactor + (0.1 - (5 - 5p)(0.08 + 0.02(5 - 5p))))`; and at
(6, 2, 2.5, 0.8) the result is interval 15, repetitions 3 and ease
factor 2.5 within 1e-6. -/
theorem calculateSpacedRepetitionInterval_spec :
    (∀ (currentInterval : ℚ) (repetitions : ℤ) (easeFactor performance : ℚ),
      (performance ≥ 0.6 →
        (calculateSpacedRepetitionInterval currentInterval repetitions easeFactor
            performance).newInterval =
          (if repetitions = 0 then 1
            else if repetitions = 1 then 6
            else (jsRound (currentInterval * easeFactor) : ℚ)) ∧
        (calculateSpacedRepetitionInterval currentInterval repetitions easeFactor
            performance).newRepetitions = repetitions + 1) ∧
      (performance < 0.6 →
        (calculateSpacedRepetitionInterval currentInterval repetitions easeFactor
            performance).newRepetitions = 0 ∧
        (calculateSpacedRepetitionInterval currentInterval repetitions easeFactor
            performance).newInterval = 1) ∧
      (calculateSpacedRepetitionInterval currentInterval repetitions easeFactor
          performance).newEaseFactor =
        max 1.3 (easeFactor +
          (0.1 - (5 - performance * 5) * (0.08 + (5 - performance * 5) * 0.02)))) ∧
    (calculateSpacedRepetitionInterval 6 2 2.5 0.8).newInterval = 15 ∧
    (calculateSpacedRepetitionInterval 6 2 2.5 0.8).newRepetitions = 3 ∧
    |(calculateSpacedRepetitionInterval 6 2 2.5 0.8).newEaseFactor - 2.5| ≤ 1 / 1000000 := by
  refine ⟨?_, ?_, ?_, ?_⟩
  · intro currentInterval repetitions easeFactor performance
    refine ⟨fun h => ?_, fun h => ?_, rfl⟩
    · constructor <;>
        simp only [calculateSpacedRepetitionInterval, if_pos h]
    · constructor <;>
        simp only [calculateSpacedRepetitionInterval, if_neg (not_le.mpr h)]
  · norm_num [calculateSpacedRepetitionInterval, jsRound]
  · norm_num [calculateSpacedRepetitionInterval]
  · norm_num [calculateSpacedRepetitionInterval]

/-- Witness for C3: the pass case at (6, 2, 2.5, 0.8) and the fail case
at (1, 0, 1.3, 0.4), obtained from the theorem at those inputs. -/
theorem calculateSpacedRepetitionInterval_spec_witness :
    (calculateSpacedRepetitionInterval 6 2 2.5 0.8).newInterval =
      (if (2 : ℤ) = 0 then 1
        else if (2 : ℤ) = 1 then 6
        else (jsRound (6 * 2.5) : ℚ)) ∧
    (calculateSpacedRepetitionInterval 6 2 2.5 0.8).newRepetitions = 2 + 1 ∧
    (calculateSpacedRepetitionInterval 1 0 1.3 0.4).newRepetitions = 0 ∧
    (calculateSpacedRepetitionInterval 1 0 1.3 0.4).newInterval = 1 :=
  ⟨((calculateSpacedRepetitionInterval_spec.1 6 2 2.5 0.8).1 (by norm_num)).1,
   ((calculateSpacedRepetitionInterval_spec.1 6 2 2.5 0.8).1 (by norm_num)).2,
   ((calculateSpacedRepetitionInterval_spec.1 1 0 1.3 0.4).2.1 (by norm_num)).1,
   ((calculateSpacedRepetitionInterval_spec.1 1 0 1.3 0.4).2.1 (by norm_num)).2⟩

/-- Counterexample to C4 as stated: at input ease factor 1.3 (the floor
itself) and performance 0.4, the returned ease factor is again 1.3, not
strictly less than the input. -/
theorem spacedRepetition_fail_not_strict :
    ¬ ((calculateSpacedRepetitionInterval 1 0 1.3 0.4).newEaseFactor < 1.3) := by
  norm_num [calculateSpacedRepetitionInterval]

/-- Claim C4 as amended: at performance 0.4 the interval and repetition count
reset to 1 and 0 regardless of the other arguments, and the new ease
factor is `max 1.3 (easeFactor - 0.32)` — at least the 1.3 floor, and
strictly below the input ease factor whenever that input exceeds 1.3. -/
theorem spacedRepetition_fail_spec :
    ∀ (currentInterval : ℚ) (repetitions : ℤ) (easeFactor : ℚ),
      (calculateSpacedRepetitionInterval currentInterval repetitions easeFactor
          0.4).newInterval = 1 ∧
      (calculateSpacedRepetitionInterval currentInterval repetitions easeFactor
          0.4).newRepetitions = 0 ∧
      (calculateSpacedRepetitionInterval currentInterval repetitions easeFactor
          0.4).newEaseFactor = max 1.3 (easeFactor - 0.32) ∧
      1.3 ≤ (calculateSpacedRepetitionInterval currentInterval repetitions easeFactor
          0.4).newEaseFactor ∧
      (1.3 < easeFactor →
        (calculateSpacedRepetitionInterval currentInterval repetitions easeFactor
            0.4).newEaseFactor < easeFactor) := by
  intro currentInterval repetitions easeFactor
  have hfail : ¬ ((0.4 : ℚ) ≥ 0.6) := by norm_num
  have hef : (calculateSpacedRepetitionInterval currentInterval repetitions easeFactor
      0.4).newEaseFactor = max 1.3 (easeFactor - 0.32) := by
    simp only [calculateSpacedRepetitionInterval]
    norm_num
    ring_nf
  refine ⟨?_, ?_, hef, ?_, ?_⟩
  · simp only [calculateSpacedRepetitionInterval, if_neg hfail]
  · simp only [calculateSpacedRepetitionInterval, if_neg hfail]
  · rw [hef]; exact le_max_left _ _
  · intro h
    rw [hef]
    exact max_lt h (by linarith)

/-- Witness for C4's amended theorem at ease factor 2.5. -/
theorem spacedRepetition_fail_spec_witness :
    (calculateSpacedRepetitionInterval 6 2 2.5 0.4).newInterval = 1 ∧
    (calculateSpacedRepetitionInterval 6 2 2.5 0.4).newRepetitions = 0 ∧
    (1.3 : ℚ) < 2.5 ∧
    (calculateSpacedRepetitionInterval 6 2 2.5 0.4).newEaseFactor < 2.5 :=
  ⟨(spacedRepetition_fail_spec 6 2 2.5).1,
   (spacedRepetition_fail_spec 6 2 2.5).2.1,
   by norm_num,
   (spacedRepetition_fail_spec 6 2 2.5).2.2.2.2 (by norm_num)⟩

/-- Claim C2: `calculateQuestionPriority` is the clamp to [0,100] of the sum of
the base 50, the mastery factor ((100 - mastery) * 0.5, or flat 25 with
no progress), the recency factor min(days * 2, 20) when progress exists,
the difficulty bonus 5/10/15, the -30 recent-attempt penalty, and the
success-rate factor (+20 below 0.5, -10 above 0.8, on positive attempt
counts); a brand-new topic's medium question scores 85, and 55 when
recently attempted. -/
theorem calculateQuestionPriority_spec :
    (∀ (question : Question) (progress : Option UserProgress)
        (wasRecentlyAttempted : Bool) (now : ℤ),
      calculateQuestionPriority question progress wasRecentlyAttempted now =
        max 0 (min 100 ((50 : ℚ) +
          (match progress with
            | some p => (100 - p.masteryLevel) * 0.5
            | none => (25 : ℚ)) +
          (match progress with
            | some p => min ((daysSince now p.lastPracticed : ℚ) * 2) 20
            | none => (0 : ℚ)) +
          (if question.difficulty = "easy" then (5 : ℚ)
            else if question.difficulty = "medium" then 10
            else if question.difficulty = "hard" then 15
            else 0) +
          (if wasRecentlyAttempted then (-30 : ℚ) else 0) +
          (match progress with
            | some p =>
              if p.totalAttempts > 0 then
                if (p.correctAttempts : ℚ) / (p.totalAttempts : ℚ) < 0.5 then (20 : ℚ)
                else if (p.correctAttempts : ℚ) / (p.totalAttempts : ℚ) > 0.8 then -10
                else 0
              else 0
            | none => (0 : ℚ))))) ∧
    (∀ (question : Question) (now : ℤ), question.difficulty = "medium" →
      calculateQuestionPriority question none false now = 85 ∧
      calculateQuestionPriority question none true now = 55) := by
  constructor
  · intro question progress wasRecentlyAttempted now
    cases progress <;>
      · simp only [calculateQuestionPriority]
        split_ifs <;> (congr 1; congr 1; ring)
  · intro question now hmed
    have heasy : ¬ (question.difficulty = "easy") := by rw [hmed]; decide
    constructor <;>
      simp only [calculateQuestionPriority, if_neg heasy, if_pos hmed,
        if_true, if_false, Bool.false_eq_true] <;>
      norm_num

/-- Witness for C2's particular values at a concrete medium question. -/
theorem calculateQuestionPriority_spec_witness :
    (⟨"m3", "Math", "medium"⟩ : Question).difficulty = "medium" ∧
    calculateQuestionPriority ⟨"m3", "Math", "medium"⟩ none false 0 = 85 ∧
    calculateQuestionPriority ⟨"m3", "Math", "medium"⟩ none true 0 = 55 :=
  ⟨rfl,
   (calculateQuestionPriority_spec.2 ⟨"m3", "Math", "medium"⟩ 0 rfl).1,
   (calculateQuestionPriority_spec.2 ⟨"m3", "Math", "medium"⟩ 0 rfl).2⟩

/-- Claim C7: assuming distinct question ids, a question is returned by
`getQuestionsForReview` exactly when the learner has a progress row for
its topic whose whole-day distance from `now` meets the mastery-tiered
threshold (7 at mastery ≥ 80, 3 at ≥ 60, else 1); the returned list has
no duplicates; and every returned question's topic has a progress row. -/
theorem getQuestionsForReview_spec :
    ∀ (userProgress : List UserProgress) (questions : List Question) (now : ℤ),
      (questions.map (·.id)).Nodup →
      (∀ q : Question,
          q ∈ getQuestionsForReview userProgress questions now ↔
            q ∈ questions ∧ ∃ p ∈ userProgress, p.topic = q.topic ∧
              daysSince now p.lastPracticed ≥
                (if p.masteryLevel ≥ 80 then 7
                  else if p.masteryLevel ≥ 60 then 3 else 1)) ∧
      (getQuestionsForReview userProgress questions now).Nodup ∧
      (∀ q ∈ getQuestionsForReview userProgress questions now,
        ∃ p ∈ userProgress, p.topic = q.topic) := by
  intro userProgress questions now hnodup
  have hinj := List.inj_on_of_nodup_map hnodup
  have hIffDue : ∀ p : UserProgress, isDue now p = true ↔
      daysSince now p.lastPracticed ≥
        (if p.masteryLevel ≥ 80 then 7 else if p.masteryLevel ≥ 60 then 3 else 1) := by
    intro p
    simp [isDue, reviewInterval]
  have hmem : ∀ q : Question,
      q ∈ getQuestionsForReview userProgress questions now ↔
        q ∈ questions ∧ ∃ p ∈ userProgress, p.topic = q.topic ∧ isDue now p = true := by
    intro q
    simp only [getQuestionsForReview, List.mem_filter, List.contains, List.elem_eq_mem,
      decide_eq_true_eq, List.mem_flatMap]
    constructor
    · rintro ⟨hq, p, hp, hid⟩
      refine ⟨hq, p, hp, ?_⟩
      by_cases hdue : isDue now p = true
      · rw [if_pos hdue] at hid
        rcases List.mem_map.mp hid with ⟨q', hq', hid'⟩
        rcases List.mem_filter.mp hq' with ⟨hq'mem, htop⟩
        have hq'q : q' = q := hinj hq'mem hq hid'
        subst hq'q
        exact ⟨(by simpa using htop : q'.topic = p.topic).symm, hdue⟩
      · rw [if_neg hdue] at hid
        exact absurd hid (List.not_mem_nil _)
    · rintro ⟨hq, p, hp, htop, hdue⟩
      refine ⟨hq, p, hp, ?_⟩
      rw [if_pos hdue]
      exact List.mem_map.mpr ⟨q, List.mem_filter.mpr ⟨hq, by simpa using htop.symm⟩, rfl⟩
  refine ⟨fun q => (hmem q).trans ?_, ?_, ?_⟩
  · constructor
    · rintro ⟨h1, p, hp, ht, hd⟩
      exact ⟨h1, p, hp, ht, (hIffDue p).mp hd⟩
    · rintro ⟨h1, p, hp, ht, hd⟩
      exact ⟨h1, p, hp, ht, (hIffDue p).mpr hd⟩
  · exact List.Nodup.filter _ (List.Nodup.of_map _ hnodup)
  · intro q hq
    rcases (hmem q).mp hq with ⟨_, p, hp, ht, _⟩
    exact ⟨p, hp, ht⟩

/-- At mastery 85, a topic last practiced 8 whole days before `now` meets
its 7-day threshold. -/
lemma daysSince_eight_days_due :
    daysSince 691200000 0 ≥
      (if (85 : ℚ) ≥ 80 then 7 else if (85 : ℚ) ≥ 60 then 3 else 1) := by
  norm_num [daysSince]

/-- Witness for C7: with one Math question and one Math progress row at
mastery 85 last practiced 8 days ago, the question is due for review. -/
theorem getQuestionsForReview_spec_witness :
    (([⟨"m1", "Math", "easy"⟩] : List Question).map (·.id)).Nodup ∧
    (⟨"m1", "Math", "easy"⟩ : Question) ∈
      getQuestionsForReview [⟨"u1", "Math", 85, 0, 3, 3⟩] [⟨"m1", "Math", "easy"⟩] 691200000 :=
  ⟨by simp,
   ((getQuestionsForReview_spec [⟨"u1", "Math", 85, 0, 3, 3⟩] [⟨"m1", "Math", "easy"⟩]
        691200000 (by simp)).1 ⟨"m1", "Math", "easy"⟩).mpr
     ⟨by simp, ⟨"u1", "Math", 85, 0, 3, 3⟩, by simp, rfl, daysSince_eight_days_due⟩⟩

/-- `scorePrecedes` is transitive. -/
lemma scorePrecedes_trans : ∀ a b c : ScoredQuestion,
    scorePrecedes a b → scorePrecedes b c → scorePrecedes a c := by
  intro a b c hab hbc
  simp only [scorePrecedes, decide_eq_true_eq] at *
  rcases hab with h1 | ⟨h1, h1m⟩ <;> rcases hbc with h2 | ⟨h2, h2m⟩
  · exact Or.inl (h2.trans h1)
  · exact Or.inl (h2 ▸ h1)
  · exact Or.inl (h1 ▸ h2)
  · exact Or.inr ⟨h1.trans h2, h1m.trans h2m⟩

/-- `scorePrecedes` is total. -/
lemma scorePrecedes_total : ∀ a b : ScoredQuestion,
    scorePrecedes a b || scorePrecedes b a := by
  intro a b
  simp only [scorePrecedes, Bool.or_eq_true, decide_eq_true_eq]
  rcases lt_trichotomy a.priority b.priority with h | h | h
  · exact Or.inr (Or.inl h)
  · rcases le_total a.masteryLevel b.masteryLevel with hm | hm
    · exact Or.inl (Or.inr ⟨h, hm⟩)
    · exact Or.inr (Or.inr ⟨h.symm, hm⟩)
  · exact Or.inl (Or.inl h)

/-- Claim C8: `getNextQuestions` scores every question of the bank with
`calculateQuestionPriority` and returns the first `count` questions of a
permutation of the scored list that is sorted by priority descending,
ties broken by ascending mastery level of the question's topic. -/
theorem getNextQuestions_spec :
    ∀ (userProgress : List UserProgress) (recentQuestionIds : List String)
      (questions : List Question) (count : ℕ) (now : ℤ),
      (∀ q : Question, (scoreQuestion userProgress recentQuestionIds now q).priority =
        calculateQuestionPriority q
          (userProgress.find? (fun p => p.topic = q.topic))
          (recentQuestionIds.contains q.id) now) ∧
      ∃ ranked : List ScoredQuestion,
        ranked.Perm (questions.map (scoreQuestion userProgress recentQuestionIds now)) ∧
        ranked.Pairwise (fun a b =>
          b.priority < a.priority ∨
            (a.priority = b.priority ∧ a.masteryLevel ≤ b.masteryLevel)) ∧
        getNextQuestions userProgress recentQuestionIds questions count now =
          (ranked.take count).map (·.question) := by
  intro userProgress recentQuestionIds questions count now
  refine ⟨fun q => rfl,
    (questions.map (scoreQuestion userProgress recentQuestionIds now)).mergeSort scorePrecedes,
    List.mergeSort_perm _ _, ?_, rfl⟩
  have hs := List.sorted_mergeSort
    (fun a b c => scorePrecedes_trans a b c) (fun a b => scorePrecedes_total a b)
    (questions.map (scoreQuestion userProgress recentQuestionIds now))
  refine hs.imp ?_
  intro a b h
  simpa only [scorePrecedes, decide_eq_true_eq] using h

/-- Claim C9: both progress-mutating operations preserve the counter invariant
`correctAttempts ≤ totalAttempts` (and `totalAttempts = 0 →
correctAttempts = 0`): the update paths of `updateUserProgress` and
`updateMasteryLevel` keep it, and both creation paths produce
`totalAttempts = 1` with `correctAttempts` equal to 0 or 1. -/
theorem progress_invariants_preserved :
    ∀ (p : UserProgress) (userId topic : String) (isCorrect : Bool)
      (performance : ℚ) (now : ℤ),
      (ProgressInv p → 0 ≤ p.totalAttempts →
        ProgressInv (updateUserProgress (some p) userId topic isCorrect now)) ∧
      (updateUserProgress (some p) userId topic isCorrect now).totalAttempts =
        p.totalAttempts + 1 ∧
      (updateUserProgress (some p) userId topic isCorrect now).correctAttempts =
        p.correctAttempts + (if isCorrect then 1 else 0) ∧
      (updateMasteryLevel (some p) userId topic performance now).totalAttempts =
        p.totalAttempts ∧
      (updateMasteryLevel (some p) userId topic performance now).correctAttempts =
        p.correctAttempts ∧
      ProgressInv (updateUserProgress none userId topic isCorrect now) ∧
      (updateUserProgress none userId topic isCorrect now).totalAttempts = 1 ∧
      ((updateUserProgress none userId topic isCorrect now).correctAttempts = 0 ∨
        (updateUserProgress none userId topic isCorrect now).correctAttempts = 1) ∧
      (ProgressInv p → ProgressInv (updateMasteryLevel (some p) userId topic performance now)) ∧
      ProgressInv (updateMasteryLevel none userId topic performance now) ∧
      (updateMasteryLevel none userId topic performance now).totalAttempts = 1 ∧
      ((updateMasteryLevel none userId topic performance now).correctAttempts = 0 ∨
        (updateMasteryLevel none userId topic performance now).correctAttempts = 1) := by
  intro p userId topic isCorrect performance now
  refine ⟨?_, rfl, rfl, rfl, rfl, ?_, rfl, ?_, fun h => h, ?_, rfl, ?_⟩
  · rintro ⟨hle, hzero⟩ hpos
    constructor
    · simp only [updateUserProgress]
      cases isCorrect <;> simp <;> omega
    · simp only [updateUserProgress]
      omega
  · constructor
    · simp only [updateUserProgress]
      cases isCorrect <;> simp
    · simp only [updateUserProgress]
      omega
  · simp only [updateUserProgress]
    cases isCorrect <;> simp
  · constructor
    · simp only [updateMasteryLevel]
      split_ifs <;> simp
    · simp only [updateMasteryLevel]
      omega
  · simp only [updateMasteryLevel]
    split_ifs <;> simp

/-- Witness for C9 at a concrete existing row with 2 total and 1 correct
attempt. -/
theorem progress_invariants_preserved_witness :
    ProgressInv ⟨"u1", "Math", 50, 0, 2, 1⟩ ∧ (0 : ℤ) ≤ 2 ∧
    ProgressInv (updateUserProgress (some ⟨"u1", "Math", 50, 0, 2, 1⟩) "u1" "Math" true 0) ∧
    ProgressInv (updateMasteryLevel (some ⟨"u1", "Math", 50, 0, 2, 1⟩) "u1" "Math" 0.7 0) :=
  ⟨by constructor <;> simp, by simp,
   (progress_invariants_preserved ⟨"u1", "Math", 50, 0, 2, 1⟩ "u1" "Math" true 0.7 0).1
     (by constructor <;> simp) (by simp),
   (progress_invariants_preserved ⟨"u1", "Math", 50, 0, 2, 1⟩ "u1" "Math" true 0.7
       0).2.2.2.2.2.2.2.2.1
     (by constructor <;> simp)⟩
